import Mathlib

/-!
Verification of the Bookableu backend's document indexing and retrieval
pipeline (app/services/book_service.py, app/routes/books.py, app/models.py)
against its natural-language specification.

Texts are modelled as lists of characters; Python `str.split()` is embedded
as `pySplit`, `" ".join` as `pyJoin`. Machine floats that the source uses
only to carry exact ratios of small integers are modelled with exact
rational arithmetic.
-/

namespace Bookableu

/-! ## Word splitting — `text.split()` (book_service.py line 60)

Python's `str.split()` with no argument splits on runs of whitespace and
discards empty strings. `splitAux s acc` scans `s`, accumulating the
current word in `acc` (reversed). -/

def splitAux : List Char → List Char → List (List Char)
  | [], acc => if acc.isEmpty then [] else [acc.reverse]
  | c :: cs, acc =>
    if c.isWhitespace then
      if acc.isEmpty then splitAux cs [] else acc.reverse :: splitAux cs []
    else splitAux cs (c :: acc)

/-- `text.split()`: whitespace-delimited words of `text`, empty runs dropped. -/
def pySplit (s : List Char) : List (List Char) := splitAux s []

/-- `" ".join(ws)` (book_service.py line 63). -/
def pyJoin : List (List Char) → List Char
  | [] => []
  | [w] => w
  | w :: ws => w ++ ' ' :: pyJoin ws

/-! ## Grouping — `words[i:i+chunk_size]` for `i in range(0, len(words), chunk_size)`
(book_service.py lines 62-64).  A zero step is invalid in Python
(`range` raises `ValueError`); the claims quantify over positive sizes only,
so `toGroups 0 _` is given the harmless value `[]`. -/

def toGroupsAux (n : Nat) : Nat → List α → List (List α)
  | _, [] => []
  | 0, _ :: _ => []
  | fuel + 1, x :: xs =>
    if n = 0 then []
    else (x :: xs).take n :: toGroupsAux n fuel ((x :: xs).drop n)

def toGroups (n : Nat) (l : List α) : List (List α) := toGroupsAux n l.length l

theorem toGroupsAux_fuel (n : Nat) :
    ∀ (f1 : Nat) (l : List α) (f2 : Nat), l.length ≤ f1 → l.length ≤ f2 →
      toGroupsAux n f1 l = toGroupsAux n f2 l := by
  intro f1
  induction f1 with
  | zero =>
    intro l f2 h1 _
    have : l = [] := List.length_eq_zero.mp (Nat.le_zero.mp h1)
    subst this
    cases f2 <;> rfl
  | succ f ih =>
    intro l f2 h1 h2
    match l, f2 with
    | [], g => cases g <;> rfl
    | x :: xs, 0 => simp at h2
    | x :: xs, g + 1 =>
      simp only [toGroupsAux]
      by_cases hn : n = 0
      · simp [hn]
      · simp only [hn, if_false]
        have hlen : ((x :: xs).drop n).length ≤ f := by
          simp only [List.length_drop, List.length_cons]
          simp only [List.length_cons] at h1
          omega
        have hlen2 : ((x :: xs).drop n).length ≤ g := by
          simp only [List.length_drop, List.length_cons]
          simp only [List.length_cons] at h2
          omega
        rw [ih _ _ hlen hlen2]

/-- `chunk_text(text, chunk_size)` (book_service.py lines 48-66):
split into words, group into runs of `chunk_size`, join each group with `" "`. -/
def chunk_text (text : List Char) (chunk_size : Nat) : List (List Char) :=
  (toGroups chunk_size (pySplit text)).map pyJoin

/-! ### Lemmas about `pySplit` -/

/-- Every word emitted by `splitAux` is nonempty and whitespace-free,
provided the accumulator is whitespace-free. -/
theorem splitAux_mem (s : List Char) :
    ∀ acc, (∀ c ∈ acc, c.isWhitespace = false) →
      ∀ w ∈ splitAux s acc, w ≠ [] ∧ ∀ c ∈ w, c.isWhitespace = false := by
  induction s with
  | nil =>
    intro acc hacc w hw
    simp only [splitAux] at hw
    split at hw
    · simp at hw
    · rename_i hne
      simp only [List.mem_singleton] at hw
      subst hw
      constructor
      · simpa [List.isEmpty_iff] using hne
      · intro c hc
        exact hacc c (List.mem_reverse.mp hc)
  | cons c cs ih =>
    intro acc hacc w hw
    simp only [splitAux] at hw
    by_cases hws : c.isWhitespace
    · simp only [hws, if_true] at hw
      split at hw
      · exact ih [] (by simp) w hw
      · rename_i hne
        rcases List.mem_cons.mp hw with h | h
        · subst h
          refine ⟨by simpa [List.isEmpty_iff] using hne, ?_⟩
          intro x hx
          exact hacc x (List.mem_reverse.mp hx)
        · exact ih [] (by simp) w h
    · simp only [hws, if_false] at hw
      refine ih (c :: acc) ?_ w hw
      intro x hx
      rcases List.mem_cons.mp hx with h | h
      · subst h; simpa using hws
      · exact hacc x h

theorem pySplit_mem {w : List Char} {s : List Char} (hw : w ∈ pySplit s) :
    w ≠ [] ∧ ∀ c ∈ w, c.isWhitespace = false :=
  splitAux_mem s [] (by simp) w hw

/-- Scanning a whitespace-free word just extends the accumulator. -/
theorem splitAux_no_ws (w : List Char) (hw : ∀ c ∈ w, c.isWhitespace = false) :
    ∀ acc, splitAux w acc =
      if (acc.reverse ++ w).isEmpty then [] else [acc.reverse ++ w] := by
  induction w with
  | nil => intro acc; simp [splitAux, List.isEmpty_iff]
  | cons c cs ih =>
    intro acc
    have hc : c.isWhitespace = false := hw c (by simp)
    have hcs : ∀ x ∈ cs, x.isWhitespace = false := fun x hx => hw x (by simp [hx])
    simp only [splitAux, hc, Bool.false_eq_true, if_false]
    rw [ih hcs (c :: acc)]
    simp

/-- Scanning a whitespace-free word followed by `' '` emits the word
(prefixed by the accumulator) and continues fresh. -/
theorem splitAux_append_space (w : List Char) (hw : ∀ c ∈ w, c.isWhitespace = false)
    (t : List Char) :
    ∀ acc, splitAux (w ++ ' ' :: t) acc =
      if (acc.reverse ++ w).isEmpty then splitAux t []
      else (acc.reverse ++ w) :: splitAux t [] := by
  induction w with
  | nil =>
    intro acc
    have hsp : (' ').isWhitespace = true := by decide
    simp only [List.nil_append, splitAux, hsp, if_true, List.append_nil]
    rcases acc with _ | ⟨a, as⟩
    · simp
    · simp
  | cons c cs ih =>
    intro acc
    have hc : c.isWhitespace = false := hw c (by simp)
    have hcs : ∀ x ∈ cs, x.isWhitespace = false := fun x hx => hw x (by simp [hx])
    simp only [List.cons_append, splitAux, hc, Bool.false_eq_true, if_false,
      List.append_eq]
    rw [ih hcs (c :: acc)]
    simp

/-- Splitting the `" "`-join of nonempty whitespace-free words recovers
exactly those words. -/
theorem pySplit_pyJoin (ws : List (List Char))
    (h : ∀ w ∈ ws, w ≠ [] ∧ ∀ c ∈ w, c.isWhitespace = false) :
    pySplit (pyJoin ws) = ws := by
  induction ws with
  | nil => simp [pySplit, pyJoin, splitAux]
  | cons w rest ih =>
    rcases h w (by simp) with ⟨hne, hnws⟩
    match rest with
    | [] =>
      show pySplit (pyJoin [w]) = [w]
      unfold pySplit pyJoin
      rw [splitAux_no_ws w hnws []]
      simp [List.isEmpty_iff, hne]
    | w' :: rest' =>
      show pySplit (pyJoin (w :: w' :: rest')) = w :: w' :: rest'
      have hrest : ∀ x ∈ w' :: rest', x ≠ [] ∧ ∀ c ∈ x, c.isWhitespace = false :=
        fun x hx => h x (by simp [hx])
      unfold pySplit pyJoin
      rw [splitAux_append_space w hnws _ []]
      simp only [List.reverse_nil, List.nil_append, List.isEmpty_iff, hne, if_false]
      have := ih hrest
      unfold pySplit at this
      rw [this]

/-- All-whitespace input splits to no words at all. -/
theorem pySplit_all_ws (s : List Char) (h : ∀ c ∈ s, c.isWhitespace = true) :
    pySplit s = [] := by
  unfold pySplit
  induction s with
  | nil => simp [splitAux]
  | cons c cs ih =>
    have hc := h c (by simp)
    simp only [splitAux, hc, if_true, List.isEmpty_nil, if_true]
    exact ih (fun x hx => h x (by simp [hx]))

/-! ### Lemmas about `toGroups` -/

theorem toGroups_nil (n : Nat) : toGroups n ([] : List α) = [] := by
  unfold toGroups; rfl

theorem toGroups_zero (l : List α) : toGroups 0 l = [] := by
  cases l <;> rfl

theorem toGroups_cons (n : Nat) (hn : n ≠ 0) (x : α) (xs : List α) :
    toGroups n (x :: xs) = (x :: xs).take n :: toGroups n ((x :: xs).drop n) := by
  show toGroupsAux n (x :: xs).length (x :: xs) = _
  simp only [List.length_cons, toGroupsAux, hn, if_false]
  rw [toGroupsAux_fuel n xs.length ((x :: xs).drop n) ((x :: xs).drop n).length]
  · rfl
  · simp only [List.length_drop, List.length_cons]
    omega
  · exact Nat.le_refl _

theorem toGroups_join_bounded (n : Nat) (hn : n ≠ 0) :
    ∀ (k : Nat) (l : List α), l.length ≤ k → (toGroups n l).flatten = l := by
  intro k
  induction k with
  | zero =>
    intro l hl
    have : l = [] := List.length_eq_zero.mp (Nat.le_zero.mp hl)
    subst this
    simp [toGroups_nil]
  | succ k ih =>
    intro l hl
    match l with
    | [] => simp [toGroups_nil]
    | x :: xs =>
      rw [toGroups_cons n hn]
      simp only [List.flatten_cons]
      have hlen : ((x :: xs).drop n).length ≤ k := by
        simp only [List.length_drop, List.length_cons]
        simp only [List.length_cons] at hl
        omega
      rw [ih _ hlen]
      exact List.take_append_drop n (x :: xs)

/-- Grouping then flattening is the identity. -/
theorem toGroups_join (n : Nat) (hn : n ≠ 0) (l : List α) :
    (toGroups n l).flatten = l :=
  toGroups_join_bounded n hn l.length l (Nat.le_refl _)

theorem toGroups_subset_bounded (n : Nat) :
    ∀ (k : Nat) (l : List α), l.length ≤ k →
      ∀ g ∈ toGroups n l, ∀ x ∈ g, x ∈ l := by
  intro k
  induction k with
  | zero =>
    intro l hl g hg
    have : l = [] := List.length_eq_zero.mp (Nat.le_zero.mp hl)
    subst this
    simp [toGroups_nil] at hg
  | succ k ih =>
    intro l hl g hg
    match l with
    | [] => simp [toGroups_nil] at hg
    | y :: ys =>
      by_cases hn : n = 0
      · rw [hn, toGroups_zero] at hg
        simp at hg
      · rw [toGroups_cons n hn] at hg
        have hlen : ((y :: ys).drop n).length ≤ k := by
          simp only [List.length_drop, List.length_cons]
          simp only [List.length_cons] at hl
          omega
        rcases List.mem_cons.mp hg with h | h
        · subst h
          intro x hx
          exact List.mem_of_mem_take hx
        · intro x hx
          exact List.mem_of_mem_drop (ih _ hlen g h x hx)

/-- Every element of a group comes from the original list. -/
theorem toGroups_subset (n : Nat) (l : List α) (g : List α)
    (hg : g ∈ toGroups n l) : ∀ x ∈ g, x ∈ l :=
  toGroups_subset_bounded n l.length l (Nat.le_refl _) g hg

theorem toGroups_ne_nil_bounded (n : Nat) :
    ∀ (k : Nat) (l : List α), l.length ≤ k → ∀ g ∈ toGroups n l, g ≠ [] := by
  intro k
  induction k with
  | zero =>
    intro l hl g hg
    have : l = [] := List.length_eq_zero.mp (Nat.le_zero.mp hl)
    subst this
    simp [toGroups_nil] at hg
  | succ k ih =>
    intro l hl g hg
    match l with
    | [] => simp [toGroups_nil] at hg
    | y :: ys =>
      by_cases hn : n = 0
      · rw [hn, toGroups_zero] at hg
        simp at hg
      · rw [toGroups_cons n hn] at hg
        have hlen : ((y :: ys).drop n).length ≤ k := by
          simp only [List.length_drop, List.length_cons]
          simp only [List.length_cons] at hl
          omega
        rcases List.mem_cons.mp hg with h | h
        · subst h
          simp [List.take_eq_nil_iff, hn]
        · exact ih _ hlen g h

/-- Groups are never empty. -/
theorem toGroups_ne_nil (n : Nat) (l : List α) (g : List α)
    (hg : g ∈ toGroups n l) : g ≠ [] :=
  toGroups_ne_nil_bounded n l.length l (Nat.le_refl _) g hg

theorem toGroups_dropLast_length_bounded (n : Nat) (hn : n ≠ 0) :
    ∀ (k : Nat) (l : List α), l.length ≤ k →
      ∀ g ∈ (toGroups n l).dropLast, g.length = n := by
  intro k
  induction k with
  | zero =>
    intro l hl
    have : l = [] := List.length_eq_zero.mp (Nat.le_zero.mp hl)
    subst this
    simp [toGroups_nil]
  | succ k ih =>
    intro l hl g hg
    match l with
    | [] => simp [toGroups_nil] at hg
    | y :: ys =>
      rw [toGroups_cons n hn] at hg
      have hlen : ((y :: ys).drop n).length ≤ k := by
        simp only [List.length_drop, List.length_cons]
        simp only [List.length_cons] at hl
        omega
      by_cases hrest : toGroups n ((y :: ys).drop n) = []
      · rw [hrest] at hg
        simp at hg
      · rw [List.dropLast_cons_of_ne_nil hrest] at hg
        rcases List.mem_cons.mp hg with h | h
        · subst h
          have hdrop : (y :: ys).drop n ≠ [] := by
            intro hcon
            rw [hcon, toGroups_nil] at hrest
            exact hrest rfl
          have : n < (y :: ys).length := by
            by_contra hle
            push_neg at hle
            rw [List.drop_eq_nil_of_le hle] at hdrop
            exact hdrop rfl
          rw [List.length_take, Nat.min_eq_left (Nat.le_of_lt this)]
        · exact ih _ hlen g h

/-- Every group except possibly the last has exactly `n` elements. -/
theorem toGroups_dropLast_length (n : Nat) (hn : n ≠ 0) (l : List α) :
    ∀ g ∈ (toGroups n l).dropLast, g.length = n :=
  toGroups_dropLast_length_bounded n hn l.length l (Nat.le_refl _)

theorem map_dropLast (f : α → β) : ∀ l : List α, (l.map f).dropLast = l.dropLast.map f
  | [] => rfl
  | [_] => rfl
  | a :: b :: l => by
    simp only [List.map_cons, List.dropLast_cons₂]
    rw [← List.map_cons f b l, map_dropLast f (b :: l)]

/-- Re-splitting any chunk produced by `chunk_text` recovers exactly the group
of words it was joined from. -/
theorem pySplit_chunk (text : List Char) (n : Nat)
    (g : List (List Char)) (hg : g ∈ toGroups n (pySplit text)) :
    pySplit (pyJoin g) = g := by
  refine pySplit_pyJoin g ?_
  intro w hw
  exact pySplit_mem (toGroups_subset n (pySplit text) g hg w hw)

theorem chunk_text_map_pySplit (text : List Char) (n : Nat) :
    (chunk_text text n).map pySplit = toGroups n (pySplit text) := by
  unfold chunk_text
  rw [List.map_map]
  have : ∀ g ∈ toGroups n (pySplit text), (pySplit ∘ pyJoin) g = id g := by
    intro g hg
    simpa using pySplit_chunk text n g hg
  rw [List.map_congr_left this, List.map_id]

/-- **C4.** For every input text and every positive target chunk size:
concatenating the word sequences of the chunks returned by `chunk_text`, in
index order, reproduces exactly the whitespace-delimited word sequence of the
input text; every chunk except possibly the last contains exactly
`chunk_size` words; and all-whitespace (in particular zero-length) text
yields zero chunks. -/
theorem chunk_text_spec (text : List Char) (n : Nat) (hn : 0 < n) :
    ((chunk_text text n).map pySplit).flatten = pySplit text ∧
    (∀ c ∈ (chunk_text text n).dropLast, (pySplit c).length = n) ∧
    ((∀ ch ∈ text, ch.isWhitespace = true) → chunk_text text n = []) := by
  have hn' : n ≠ 0 := Nat.pos_iff_ne_zero.mp hn
  refine ⟨?_, ?_, ?_⟩
  · rw [chunk_text_map_pySplit]
    exact toGroups_join n hn' _
  · intro c hc
    unfold chunk_text at hc
    rw [map_dropLast] at hc
    rcases List.mem_map.mp hc with ⟨g, hg, rfl⟩
    have hg' : g ∈ toGroups n (pySplit text) := List.dropLast_subset _ hg
    rw [pySplit_chunk text n g hg']
    exact toGroups_dropLast_length n hn' _ g hg
  · intro hws
    unfold chunk_text
    rw [pySplit_all_ws text hws, toGroups_nil]
    rfl

/-- Witness for C4 at a concrete input: the text `"a bb c"` with chunk
size 2 splits into chunks `"a bb"` and `"c"`. -/
theorem chunk_text_spec_witness :
    0 < 2 ∧
      (((chunk_text ['a', ' ', 'b', 'b', ' ', 'c'] 2).map pySplit).flatten
          = pySplit ['a', ' ', 'b', 'b', ' ', 'c'] ∧
        (∀ c ∈ (chunk_text ['a', ' ', 'b', 'b', ' ', 'c'] 2).dropLast,
            (pySplit c).length = 2) ∧
        ((∀ ch ∈ ['a', ' ', 'b', 'b', ' ', 'c'], ch.isWhitespace = true) →
          chunk_text ['a', ' ', 'b', 'b', ' ', 'c'] 2 = [])) :=
  ⟨by decide, chunk_text_spec ['a', ' ', 'b', 'b', ' ', 'c'] 2 (by decide)⟩

/-! ## Data model (app/models.py, app/schemas.py) -/

inductive BookStatus where
  | unread
  | reading
  | finished
  | processing
deriving DecidableEq, Repr

/-- The `book_metadata` JSON mapping on a book row (models.py line 89).
Each key may be absent (`none`); the indexing pipeline writes all five keys
at once (book_service.py lines 290-296). -/
structure BookMetadata where
  extracted : Option Bool := none
  index_key : Option String := none
  vectorizer_key : Option String := none
  chunks_key : Option String := none
  num_chunks : Option Nat := none
deriving DecidableEq, Repr

/-- A freshly uploaded book's metadata: the empty JSON dict (models.py
`default=dict`). -/
def emptyMetadata : BookMetadata := {}

/-- The book row fields the core touches (models.py lines 60-93).
`total_pages` is a nullable integer column. -/
structure Book where
  id : Nat
  user_id : Nat
  title : String
  file_key : String
  text_key : Option String
  author : Option String
  total_pages : Option Int
  current_page : Int
  status : BookStatus
  book_metadata : BookMetadata
deriving DecidableEq, Repr

/-! ## Artifact keys (book_service.py lines 254, 265, 272)

`base` stands for `os.path.splitext(filename)[0]`. -/

def mkIndexKey (user_id : Nat) (base : String) : String :=
  "users/" ++ toString user_id ++ "/" ++ base ++ "_index.faiss"

def mkVectorizerKey (user_id : Nat) (base : String) : String :=
  "users/" ++ toString user_id ++ "/" ++ base ++ "_vectorizer.pkl"

def mkChunksKey (user_id : Nat) (base : String) : String :=
  "users/" ++ toString user_id ++ "/" ++ base ++ "_chunks.pkl"

/-! ## Vectorizer / indexer (book_service.py lines 234-245)

Modelled from the spec: the term-weighting model and the nearest-neighbor
index are provided by external numeric libraries (sklearn `TfidfVectorizer`,
`faiss.IndexFlatL2`) whose code is not part of this repository; §4.3 of the
spec abstracts them behind the `fit_index` contract — fit a bounded-vocabulary
term-weighting model (capped at 1000 terms) over the chunk collection,
transform every chunk into a vector aligned with its chunk index, and fail
with `EmptyDocument` iff the chunk collection is empty. -/

inductive PipelineError where
  | uploadFailed
  | extractionFailed
  | emptyDocument
  | commitFailed
deriving DecidableEq, Repr

/-- The fitted term-weighting transform: a bounded vocabulary. -/
structure VectorizerModel where
  vocab : List (List Char)
deriving DecidableEq, Repr

/-- The nearest-neighbor index: one vector row per chunk index. -/
structure VectorIndex where
  rows : List (List Nat)
deriving DecidableEq, Repr

/-- Vocabulary fitted on the chunk collection, capped at 1000 terms. -/
def fitVocab (chunks : List (List Char)) : List (List Char) :=
  ((chunks.map pySplit).flatten.dedup).take 1000

/-- Term-count vector of one chunk over the fitted vocabulary. -/
def transformChunk (vocab : List (List Char)) (chunk : List Char) : List Nat :=
  vocab.map (fun t => (pySplit chunk).count t)

/-- Modelled from the spec: `fit_index(chunks)` fails with `EmptyDocument`
iff the chunk list is empty, otherwise fits the model and builds the index
with one row per chunk, in chunk-index order. -/
def fit_index (chunks : List (List Char)) :
    Except PipelineError (VectorizerModel × VectorIndex) :=
  match chunks with
  | [] => .error .emptyDocument
  | _ => .ok (⟨fitVocab chunks⟩, ⟨chunks.map (transformChunk (fitVocab chunks))⟩)

/-- **C5.** Index construction fails with `EmptyDocument` if and only if the
chunk list is empty; on every non-empty chunk list it succeeds. -/
theorem fit_index_emptyDocument (chunks : List (List Char)) :
    (fit_index chunks = .error .emptyDocument ↔ chunks = []) ∧
    (chunks ≠ [] → ∃ vm vi, fit_index chunks = .ok (vm, vi)) := by
  constructor
  · constructor
    · intro h
      match chunks with
      | [] => rfl
      | c :: cs => simp [fit_index] at h
    · intro h
      subst h
      rfl
  · intro h
    match chunks with
    | [] => exact absurd rfl h
    | c :: cs => exact ⟨_, _, rfl⟩

/-- Witness for C5: the empty chunk list fails with `EmptyDocument`; the
one-chunk list `["hi"]` builds an index. -/
theorem fit_index_emptyDocument_witness :
    fit_index [] = .error .emptyDocument ∧
      ∃ vm vi, fit_index [['h', 'i']] = .ok (vm, vi) :=
  ⟨(fit_index_emptyDocument []).1.mpr rfl,
    (fit_index_emptyDocument [['h', 'i']]).2 (by decide)⟩

/-! ## Text extraction (book_service.py lines 68-164) -/

/-- An uploaded file, already validated to be PDF or EPUB (routes/books.py
line 78).  A PDF carries its page texts; an EPUB carries the joined text of
its document items. -/
inductive BookFile where
  | pdf (pages : List (List Char))
  | epubFile (text : List Char)
deriving DecidableEq, Repr

/-- `extract_text`: PDF pages are concatenated in page order (lines 127 and
130-132); EPUB text is the joined document items (lines 151-155). -/
def extract_text_model : BookFile → List Char
  | .pdf pages => pages.flatten
  | .epubFile t => t

/-- Detected page count (book_service.py lines 213-227): PDFs report
`len(pdf_document)`, other formats report nothing. -/
def detect_pages : BookFile → Option Nat
  | .pdf pages => some pages.length
  | .epubFile _ => none

/-! ## Indexing pipeline — `process_book` (book_service.py lines 166-304)

External effects (S3 puts, text extraction inside its own try, the DB
commit) may each raise; the pipeline body runs inside one `try`, and the
`except` at lines 302-304 rolls the transaction back, so the committed DB
row is the unchanged input row on any failure. -/

structure PipelineEnv where
  uploadFileOk : Bool
  extractOk : Bool
  uploadIndexOk : Bool
  uploadVectorizerOk : Bool
  uploadChunksOk : Bool
  uploadTextOk : Bool
  commitOk : Bool
deriving DecidableEq, Repr

/-- The committed `book_metadata` on success (book_service.py lines 290-296):
all five keys written together. -/
def mdCommitted (user_id : Nat) (base : String) (numChunks : Nat) : BookMetadata :=
  { extracted := some true,
    index_key := some (mkIndexKey user_id base),
    vectorizer_key := some (mkVectorizerKey user_id base),
    chunks_key := some (mkChunksKey user_id base),
    num_chunks := some numChunks }

/-- The pipeline steps in source order (lines 202-298): upload raw file,
extract text, detect pages, chunk, fit vectorizer+index, upload the four
artifacts, commit.  The first failing step aborts the rest. -/
def pipelineSteps (env : PipelineEnv) (file : BookFile) (user_id : Nat)
    (base : String) : Except PipelineError (BookMetadata × Option Nat) :=
  if env.uploadFileOk = false then .error .uploadFailed
  else if env.extractOk = false then .error .extractionFailed
  else
    match fit_index (chunk_text (extract_text_model file) 500) with
    | .error e => .error e
    | .ok _ =>
      if env.uploadIndexOk = false then .error .uploadFailed
      else if env.uploadVectorizerOk = false then .error .uploadFailed
      else if env.uploadChunksOk = false then .error .uploadFailed
      else if env.uploadTextOk = false then .error .uploadFailed
      else if env.commitOk = false then .error .commitFailed
      else .ok (mdCommitted user_id base
          (chunk_text (extract_text_model file) 500).length,
        detect_pages file)

/-- `process_book`'s effect on the committed book row.  On success the row
gets the full metadata, status `UNREAD`, and — only when a page count was
detected and the caller-supplied `total_pages` was `None` or `0` (line 286)
— the detected page count.  On failure `db.rollback()` leaves the row
unchanged. -/
def process_book (env : PipelineEnv) (file : BookFile) (book : Book)
    (base : String) (total_pages : Option Int) : Book :=
  match pipelineSteps env file book.user_id base with
  | .error _ => book
  | .ok (md, detected) =>
    let book1 :=
      match detected with
      | some d =>
        if d ≠ 0 ∧ (total_pages = none ∨ total_pages = some 0) then
          { book with total_pages := some (d : Int) }
        else book
      | none => book
    { book1 with book_metadata := md, status := .unread }

theorem pipelineSteps_ok (env : PipelineEnv) (file : BookFile) (user_id : Nat)
    (base : String) (md : BookMetadata) (det : Option Nat)
    (h : pipelineSteps env file user_id base = .ok (md, det)) :
    md = mdCommitted user_id base
        (chunk_text (extract_text_model file) 500).length ∧
    det = detect_pages file ∧
    chunk_text (extract_text_model file) 500 ≠ [] := by
  unfold pipelineSteps at h
  split at h
  · exact absurd h (by simp)
  split at h
  · exact absurd h (by simp)
  split at h
  · exact absurd h (by simp)
  · rename_i heq
    have hne : chunk_text (extract_text_model file) 500 ≠ [] := by
      intro hnil
      rw [hnil] at heq
      simp [fit_index] at heq
    split at h
    · exact absurd h (by simp)
    split at h
    · exact absurd h (by simp)
    split at h
    · exact absurd h (by simp)
    split at h
    · exact absurd h (by simp)
    split at h
    · exact absurd h (by simp)
    · have h2 := Except.ok.inj h
      have h3 := Prod.mk.injEq .. ▸ h2
      exact ⟨h3.1.symm, h3.2.symm, hne⟩

/-- **C1.** If the pipeline fails at any step, the committed book row is
exactly the input row: `processing_metadata` stays the empty mapping (so
`extracted` is absent and none of the four artifact keys nor `num_chunks`
appears) and the status stays `PROCESSING`.  On success, the full metadata
and the flip to `UNREAD` are committed together. -/
theorem process_book_atomic (env : PipelineEnv) (file : BookFile) (book : Book)
    (base : String) (tp : Option Int)
    (hstatus : book.status = .processing)
    (hmeta : book.book_metadata = emptyMetadata) :
    (∀ e, pipelineSteps env file book.user_id base = .error e →
      process_book env file book base tp = book ∧
      (process_book env file book base tp).book_metadata.extracted = none ∧
      (process_book env file book base tp).book_metadata.index_key = none ∧
      (process_book env file book base tp).book_metadata.vectorizer_key = none ∧
      (process_book env file book base tp).book_metadata.chunks_key = none ∧
      (process_book env file book base tp).book_metadata.num_chunks = none ∧
      (process_book env file book base tp).status = .processing) ∧
    (∀ md det, pipelineSteps env file book.user_id base = .ok (md, det) →
      (process_book env file book base tp).book_metadata =
        mdCommitted book.user_id base
          (chunk_text (extract_text_model file) 500).length ∧
      (process_book env file book base tp).status = .unread) := by
  constructor
  · intro e he
    have hb : process_book env file book base tp = book := by
      unfold process_book
      rw [he]
    refine ⟨hb, ?_, ?_, ?_, ?_, ?_, ?_⟩ <;> rw [hb] <;>
      simp [hmeta, hstatus, emptyMetadata]
  · intro md det hok
    obtain ⟨hmd, _, _⟩ := pipelineSteps_ok env file book.user_id base md det hok
    unfold process_book
    rw [hok]
    subst hmd
    constructor
    · rfl
    · rfl

/-- A freshly uploaded book row: status `PROCESSING`, empty metadata
(routes/books.py lines 102-110). -/
def sampleBook : Book :=
  { id := 1, user_id := 7, title := "b", file_key := "users/7/b.pdf",
    text_key := some "users/7/b_text.txt", author := none,
    total_pages := none, current_page := 0, status := .processing,
    book_metadata := {} }

/-- An environment in which every external step succeeds. -/
def envAll : PipelineEnv :=
  { uploadFileOk := true, extractOk := true, uploadIndexOk := true,
    uploadVectorizerOk := true, uploadChunksOk := true,
    uploadTextOk := true, commitOk := true }

/-- An environment in which the artifact-index upload raises. -/
def envIndexFail : PipelineEnv :=
  { envAll with uploadIndexOk := false }

/-- Witness for C1 at concrete inputs: with the index upload failing, the
committed row is unchanged; with every step succeeding, the metadata is
written in full and the status flips to `UNREAD`. -/
theorem process_book_atomic_witness :
    process_book envIndexFail (.pdf [['h', 'i']]) sampleBook "b" none =
        sampleBook ∧
      (process_book envAll (.pdf [['h', 'i']]) sampleBook "b" none).status =
        .unread :=
  ⟨((process_book_atomic envIndexFail (.pdf [['h', 'i']]) sampleBook "b" none
        rfl rfl).1 .uploadFailed (by rfl)).1,
    ((process_book_atomic envAll (.pdf [['h', 'i']]) sampleBook "b" none
        rfl rfl).2 (mdCommitted 7 "b" 1) (some 1) (by rfl)).2⟩

/-- **C7.** For every successfully processed PDF, the detected page count is
written to `total_pages` exactly when the caller supplied no `total_pages`
or supplied zero; a caller-supplied nonzero value is left unchanged; and on
success the status becomes `UNREAD`.  (A successful run forces a nonzero
detected page count: zero pages would mean empty text, zero chunks, and an
`EmptyDocument` failure.) -/
theorem process_book_detected_pages (env : PipelineEnv) (pages : List (List Char))
    (book : Book) (base : String) (tp : Option Int) (md : BookMetadata)
    (det : Option Nat)
    (hok : pipelineSteps env (.pdf pages) book.user_id base = .ok (md, det)) :
    (process_book env (.pdf pages) book base tp).status = .unread ∧
    ((tp = none ∨ tp = some 0) →
      (process_book env (.pdf pages) book base tp).total_pages =
        some (pages.length : Int)) ∧
    (∀ v : Int, tp = some v → v ≠ 0 →
      (process_book env (.pdf pages) book base tp).total_pages =
        book.total_pages) := by
  obtain ⟨_, hdet, hne⟩ := pipelineSteps_ok env (.pdf pages) book.user_id base md det hok
  have hpages : pages.length ≠ 0 := by
    intro h0
    have hnil : pages = [] := List.length_eq_zero.mp h0
    subst hnil
    exact hne rfl
  unfold process_book
  rw [hok]
  have hdet2 : det = some pages.length := hdet
  subst hdet2
  refine ⟨rfl, ?_, ?_⟩
  · intro htp
    show (if pages.length ≠ 0 ∧ (tp = none ∨ tp = some 0) then
        { book with total_pages := some (pages.length : Int) }
      else book).total_pages = some (pages.length : Int)
    rw [if_pos ⟨hpages, htp⟩]
  · intro v hv hv0
    show (if pages.length ≠ 0 ∧ (tp = none ∨ tp = some 0) then
        { book with total_pages := some (pages.length : Int) }
      else book).total_pages = book.total_pages
    rw [if_neg]
    rintro ⟨-, h | h⟩
    · rw [hv] at h
      exact Option.noConfusion h
    · rw [hv] at h
      exact hv0 (Option.some.inj h)

/-- Witness for C7: a 2-page PDF with caller-supplied `total_pages = None`
ends with `total_pages = 2` and status `UNREAD`. -/
theorem process_book_detected_pages_witness :
    (process_book envAll (.pdf [['h', 'i'], ['y', 'o']]) sampleBook "b"
        none).status = .unread ∧
      (process_book envAll (.pdf [['h', 'i'], ['y', 'o']]) sampleBook "b"
          none).total_pages = some 2 :=
  have h := process_book_detected_pages envAll [['h', 'i'], ['y', 'o']]
    sampleBook "b" none (mdCommitted 7 "b" 1) (some 2) (by rfl)
  ⟨h.1, h.2.1 (Or.inl rfl)⟩

/-! ## Query engine — `query_book` (routes/books.py lines 303-408)

The whole handler body runs inside one `try`; the `except Exception` at
lines 406-408 catches every exception — including the `HTTPException`s the
handler itself raises at lines 337 and 343 — and re-raises the generic
`HTTPException(500, "Failed to process query")`.

The handler declares a single local `chunks`, assigned at line 375
(`chunks = pickle.loads(...)`), but already read at line 370
(`k = min(5, len(chunks))`); in Python that read raises
`UnboundLocalError`. -/

inductive PyExc where
  | httpExc (status : Nat) (detail : String)
  | unboundLocal
  | keyNotFound
  | externalFailure
deriving DecidableEq, Repr

/-- What the endpoint surfaces to the caller on failure. -/
structure HTTPErrorOut where
  status : Nat
  detail : String
deriving DecidableEq, Repr

/-- One evidence entry (schemas.py lines 132-144). Distances are exact
rationals standing in for the float32 scores. -/
structure QueryResult where
  text : List Char
  similarity_score : ℚ
  chunk_index : Nat
deriving DecidableEq, Repr

structure QueryOutput where
  response : List Char
  chunks : List QueryResult
deriving DecidableEq, Repr

/-- The external effects of the query path: S3 downloads, unpickling,
vectorizer transform, faiss index read, chunk content, ranked search
results (ascending by distance, per faiss), and the LLM completion. -/
structure QueryEnv where
  s3VectorizerOk : Bool
  transformOk : Bool
  s3IndexOk : Bool
  readIndexOk : Bool
  s3ChunksOk : Bool
  llmOk : Bool
  llmResponse : List Char
  chunksContent : List (List Char)
  searchResult : Nat → List (Nat × ℚ)

/-- Python truthiness of the nullable integer columns used at line 381. -/
def pyTruthyInt (v : Int) : Bool := v != 0

def pyTruthyOptInt : Option Int → Bool
  | none => false
  | some v => v != 0

/-- Line 383: `current_chunk = int((book.current_page / book.total_pages) *
len(chunks))`, in exact arithmetic; Python `int()` truncates toward zero,
which is `Int.tdiv`. -/
def current_chunk (cp tp : Int) (chunkCount : Nat) : Int :=
  Int.tdiv (cp * (chunkCount : Int)) tp

/-- Line 384: `[chunk for i, chunk in enumerate(relevant_chunks) if
indices[0][i] <= current_chunk]`. `enumerate` pairs each retrieved chunk
with its rank `i`; `indices[0][i]` is looked up positionally. -/
def spoiler_filter (idx : List Nat) (relevant : List (List Char))
    (bound : Int) : List (List Char) :=
  (relevant.enum.filter
      (fun p => ((idx.getD p.1 0 : Nat) : Int) ≤ bound)).map Prod.snd

/-- Lines 390-398: the i-th entry of the response pairs the i-th element of
the (possibly spoiler-filtered) `relevant_chunks` with `distances[0][i]` and
`indices[0][i]` — positions in the unfiltered ranking. -/
def build_results (relevant : List (List Char)) (dists : List ℚ)
    (idx : List Nat) : List QueryResult :=
  relevant.enum.map (fun p =>
    { text := p.2, similarity_score := dists.getD p.1 0,
      chunk_index := idx.getD p.1 0 })

/-- The `try` body of `query_book` (lines 332-404), step by step in source
order.  The detail strings match the source apart from punctuation-only
abridgement of the 404 message. -/
def query_book_inner (env : QueryEnv) (book? : Option Book) (_q : List Char)
    (no_spoilers : Bool) : Except PyExc QueryOutput :=
  match book? with
  | none =>
    -- line 337: raise HTTPException(404, ...)
    .error (.httpExc 404 "Book not found")
  | some book =>
    -- line 342: `if not book.book_metadata.get("extracted")`
    if book.book_metadata.extracted ≠ some true then
      .error (.httpExc 400 "Book text not yet extracted")
    else
      -- lines 346-348: metadata["index_key"], ["vectorizer_key"], ["chunks_key"]
      match book.book_metadata.index_key, book.book_metadata.vectorizer_key,
          book.book_metadata.chunks_key with
      | some _, some _, some _ =>
        -- lines 351-352: download and unpickle the vectorizer
        if env.s3VectorizerOk = false then .error .externalFailure
        -- line 355: vectorizer.transform([query])
        else if env.transformOk = false then .error .externalFailure
        -- lines 358-363: download the faiss index, write the temp file
        else if env.s3IndexOk = false then .error .externalFailure
        -- line 367: faiss.read_index
        else if env.readIndexOk = false then .error .externalFailure
        else
          -- line 370: `k = min(5, len(chunks))`. The local `chunks` is first
          -- assigned at line 375, so here it is still unbound.
          match (none : Option (List (List Char))) with
          | some chunksVal =>
            -- lines 370-399 as they would execute were `chunks` bound:
            if env.s3ChunksOk = false then .error .externalFailure
            else
              let k := min 5 chunksVal.length
              let ranked := env.searchResult k
              let chunks := env.chunksContent
              let idx := ranked.map Prod.fst
              let dists := ranked.map Prod.snd
              let relevant := idx.map (fun i => chunks.getD i [])
              let relevant2 :=
                if no_spoilers && pyTruthyInt book.current_page &&
                    pyTruthyOptInt book.total_pages then
                  spoiler_filter idx relevant
                    (current_chunk book.current_page
                      (book.total_pages.getD 0) chunks.length)
                else relevant
              if env.llmOk = false then .error .externalFailure
              else .ok { response := env.llmResponse,
                         chunks := build_results relevant2 dists idx }
          | none => .error .unboundLocal
      | _, _, _ => .error .keyNotFound

/-- The endpoint as the caller sees it: the blanket `except Exception`
(lines 406-408) maps every inner exception to the generic 500. -/
def query_book (env : QueryEnv) (book? : Option Book) (q : List Char)
    (no_spoilers : Bool) : Except HTTPErrorOut QueryOutput :=
  match query_book_inner env book? q no_spoilers with
  | .ok r => .ok r
  | .error _ => .error { status := 500, detail := "Failed to process query" }

/-- Every invocation of the query endpoint fails with the generic 500:
the inner body can only reach `.error` leaves. -/
theorem query_book_always_500 (env : QueryEnv) (book? : Option Book)
    (q : List Char) (ns : Bool) :
    query_book env book? q ns =
      .error { status := 500, detail := "Failed to process query" } := by
  have h : ∃ e, query_book_inner env book? q ns = .error e := by
    unfold query_book_inner
    rcases book? with _ | book
    · exact ⟨_, rfl⟩
    · repeat' split
      all_goals first
      | exact ⟨_, rfl⟩
      | (exfalso; simp_all)
  obtain ⟨e, he⟩ := h
  unfold query_book
  rw [he]

/-- A query environment in which every external effect succeeds. -/
def goodEnv : QueryEnv :=
  { s3VectorizerOk := true, transformOk := true, s3IndexOk := true,
    readIndexOk := true, s3ChunksOk := true, llmOk := true,
    llmResponse := [], chunksContent := [['w']], searchResult := fun _ => [] }

/-- A fully indexed book: committed metadata, reading progress 50 of 100. -/
def indexedBook : Book :=
  { sampleBook with
    status := .unread,
    total_pages := some 100,
    current_page := 50,
    book_metadata := mdCommitted 7 "b" 10 }

/-- **C3.** The claim fails on the code: no query ever runs the k-NN
search.  Line 370 computes `k = min(5, len(chunks))` from the local
`chunks` that is only assigned at line 375, so the handler raises
`UnboundLocalError` before searching, and the blanket handler turns every
query — any environment, any book — into the generic 500.  On a fully
healthy environment and an indexed book, the inner body fails precisely at
the unbound local. -/
theorem query_book_never_searches :
    (∀ (env : QueryEnv) (book? : Option Book) (q : List Char) (ns : Bool),
      query_book env book? q ns =
        .error { status := 500, detail := "Failed to process query" }) ∧
    (∀ (q : List Char) (ns : Bool),
      query_book_inner goodEnv (some indexedBook) q ns =
        .error .unboundLocal) :=
  ⟨query_book_always_500, fun _ _ => rfl⟩

/-- **C6.** The claim fails on the code: querying a book whose metadata
lacks `extracted=true` does raise the distinct 400 "Book text not yet
extracted" inside the handler (line 343), but the blanket
`except Exception` (lines 406-408) swallows that `HTTPException` and the
caller receives the generic 500 instead of the distinct not-indexed
failure.  No answer is returned either way. -/
theorem query_book_not_indexed (env : QueryEnv) (book : Book) (q : List Char)
    (ns : Bool) (h : book.book_metadata.extracted ≠ some true) :
    query_book_inner env (some book) q ns =
        .error (.httpExc 400 "Book text not yet extracted") ∧
    query_book env (some book) q ns =
        .error { status := 500, detail := "Failed to process query" } ∧
    ∀ r, query_book env (some book) q ns ≠ .ok r := by
  have h1 : query_book_inner env (some book) q ns =
      .error (.httpExc 400 "Book text not yet extracted") := by
    show (if book.book_metadata.extracted ≠ some true then _ else _) = _
    rw [if_pos h]
  refine ⟨h1, ?_, ?_⟩
  · unfold query_book
    rw [h1]
  · intro r hr
    unfold query_book at hr
    rw [h1] at hr
    exact Except.noConfusion hr

/-- Witness for C6: a freshly uploaded (still `PROCESSING`) book. -/
theorem query_book_not_indexed_witness :
    query_book_inner goodEnv (some sampleBook) [] false =
        .error (.httpExc 400 "Book text not yet extracted") ∧
      query_book goodEnv (some sampleBook) [] false =
        .error { status := 500, detail := "Failed to process query" } :=
  have h := query_book_not_indexed goodEnv sampleBook [] false (by decide)
  ⟨h.1, h.2.1⟩

/-- The boundary expression of line 383 equals the floor formula of the
spec: exact truncating division of nonnegative values is the floor. -/
theorem current_chunk_eq_floor (cp tp cc : Nat) :
    current_chunk (cp : Int) (tp : Int) cc
      = (Nat.floor (((cp : ℚ) / (tp : ℚ)) * (cc : ℚ)) : Int) := by
  unfold current_chunk
  have h1 : ((cp : Int) * (cc : Int)) = ((cp * cc : Nat) : Int) := by
    push_cast
    ring
  rw [h1, ← Int.ofNat_tdiv]
  congr 1
  rw [div_mul_eq_mul_div]
  have h2 : ((cp : ℚ) * cc) = ((cp * cc : Nat) : ℚ) := by
    push_cast
    ring
  rw [h2, Nat.floor_div_nat, Nat.floor_natCast]

theorem spoiler_filter_zip_aux (bound : Int) :
    ∀ (rel : List (List Char)) (idxAll : List Nat) (n : Nat),
      idxAll.length = n + rel.length →
      ((rel.enumFrom n).filter
          (fun p => ((idxAll.getD p.1 0 : Nat) : Int) ≤ bound)).map Prod.snd
        = (((idxAll.drop n).zip rel).filter
            (fun p => ((p.1 : Nat) : Int) ≤ bound)).map Prod.snd := by
  intro rel
  induction rel with
  | nil =>
    intro idxAll n h
    simp
  | cons r rs ih =>
    intro idxAll n h
    simp only [List.length_cons] at h
    have hn : n < idxAll.length := by omega
    rw [List.enumFrom_cons, List.drop_eq_getElem_cons hn]
    simp only [List.zip_cons_cons, List.filter_cons]
    have hget : idxAll.getD n 0 = idxAll[n] := List.getD_eq_getElem idxAll 0 hn
    rw [hget]
    have hih := ih idxAll (n + 1) (by omega)
    by_cases hc : (decide (((idxAll[n] : Nat) : Int) ≤ bound)) = true
    · rw [if_pos hc, if_pos hc, List.map_cons, List.map_cons, hih]
    · rw [if_neg hc, if_neg hc, hih]

/-- **C2.** With `no_spoilers` true and positive reading progress:
(i) as coded, the engine never reaches the filter — the query fails with
the generic 500 (the unbound `chunks` local at line 370);
(ii) the boundary computed by line 383 equals the claimed
`floor((current_page / total_pages) * chunk_count)`;
(iii) the filter of line 384 keeps exactly the retrieved chunks whose chunk
index is at most the boundary, in their original rank order (a sublist of
the ranked list — never reordered). -/
theorem query_spoiler_filtering :
    (∀ (env : QueryEnv) (book : Book) (q : List Char),
      book.book_metadata.extracted = some true →
      0 < book.current_page →
      (∃ t, book.total_pages = some t ∧ 0 < t) →
      query_book env (some book) q true =
        .error { status := 500, detail := "Failed to process query" }) ∧
    (∀ cp tp cc : Nat, 0 < cp → 0 < tp →
      current_chunk (cp : Int) (tp : Int) cc
        = (Nat.floor (((cp : ℚ) / (tp : ℚ)) * (cc : ℚ)) : Int)) ∧
    (∀ (idx : List Nat) (rel : List (List Char)) (bound : Int),
      idx.length = rel.length →
      spoiler_filter idx rel bound
          = ((idx.zip rel).filter
              (fun p => ((p.1 : Nat) : Int) ≤ bound)).map Prod.snd ∧
      (spoiler_filter idx rel bound).Sublist rel) := by
  refine ⟨?_, ?_, ?_⟩
  · intro env book q _ _ _
    exact query_book_always_500 env (some book) q true
  · intro cp tp cc _ _
    exact current_chunk_eq_floor cp tp cc
  · intro idx rel bound hlen
    have hzip : spoiler_filter idx rel bound
        = ((idx.zip rel).filter
            (fun p => ((p.1 : Nat) : Int) ≤ bound)).map Prod.snd := by
      unfold spoiler_filter
      have := spoiler_filter_zip_aux bound rel idx 0 (by omega)
      simpa [List.enum] using this
    refine ⟨hzip, ?_⟩
    rw [hzip]
    have h1 : (((idx.zip rel).filter
        (fun p => ((p.1 : Nat) : Int) ≤ bound))).Sublist (idx.zip rel) :=
      List.filter_sublist _
    have h2 := h1.map Prod.snd
    rwa [List.map_snd_zip idx rel (le_of_eq hlen.symm)] at h2

/-- Witness for C2 at the spec example: `chunk_count = 10`,
`current_page = 50`, `total_pages = 100` gives boundary 5; retrieved
indices `[3, 7, 2]` keep `[3, 2]`-ranked texts in order. -/
theorem query_spoiler_filtering_witness :
    query_book goodEnv (some indexedBook) [] true =
        .error { status := 500, detail := "Failed to process query" } ∧
      current_chunk ((50 : Nat) : Int) ((100 : Nat) : Int) 10 =
        (Nat.floor ((((50 : Nat) : ℚ) / ((100 : Nat) : ℚ)) *
          ((10 : Nat) : ℚ)) : Int) ∧
      current_chunk 50 100 10 = 5 ∧
      spoiler_filter [3, 7, 2] [['x'], ['y'], ['z']] 5 = [['x'], ['z']] ∧
      (spoiler_filter [3, 7, 2] [['x'], ['y'], ['z']] 5).Sublist
        [['x'], ['y'], ['z']] :=
  have h := query_spoiler_filtering
  ⟨h.1 goodEnv indexedBook [] rfl (by decide) ⟨100, rfl, by decide⟩,
    h.2.1 50 100 10 (by decide) (by decide),
    by decide,
    by decide,
    (h.2.2 [3, 7, 2] [['x'], ['y'], ['z']] 5 (by decide)).2⟩

/-- **C9.** The claim fails on the code (beyond the fact that no query
returns at all, per the unbound-local failure): the comprehension at lines
391-398 enumerates the post-filter `relevant_chunks` but reads
`distances[0][i]` and `indices[0][i]` at the post-filter position `i` of
the unfiltered arrays.  Concretely, with retrieved ranking
`indices = [7, 2]`, `distances = [1/4, 1/2]` and boundary 5, the filter
keeps only the rank-1 chunk (index 2), yet the single returned entry
carries that chunk text together with chunk 7 distance `1/4` and chunk
index `7`.  Without any dropped prefix the pairing is correct. -/
theorem build_results_misattribution :
    spoiler_filter [7, 2] [['s'], ['e']] 5 = [['e']] ∧
    build_results (spoiler_filter [7, 2] [['s'], ['e']] 5)
        [(1 : ℚ), 2] [7, 2] =
      [{ text := ['e'], similarity_score := 1, chunk_index := 7 }] ∧
    build_results [['s'], ['e']] [(1 : ℚ), 2] [7, 2] =
      [{ text := ['s'], similarity_score := 1, chunk_index := 7 },
        { text := ['e'], similarity_score := 2, chunk_index := 2 }] :=
  ⟨by decide, by decide, by decide⟩

/-! ## Deletion — `delete_book` (routes/books.py lines 202-253) -/

/-- The S3 keys `delete_book` actually deletes (lines 234-238): only the
raw file key and the extracted-text key, each skipped when falsy (empty or
null). The artifact keys recorded in `book_metadata` are never touched. -/
def delete_book_s3_keys (book : Book) : List String :=
  (if book.file_key ≠ "" then [book.file_key] else []) ++
    (match book.text_key with
     | some t => if t ≠ "" then [t] else []
     | none => [])

/-- A fully processed book whose metadata carries the four artifact keys. -/
def processedBook : Book :=
  { sampleBook with
    status := .unread,
    total_pages := some 2,
    book_metadata := mdCommitted 7 "b" 1 }

/-- **C8.** The claim fails on the code: deleting a processed book removes
only the raw file and the extracted text from object storage; the index,
vectorizer and chunk-list artifacts named by the metadata keys are never
deleted and remain orphaned. -/
theorem delete_book_leaves_artifacts :
    delete_book_s3_keys processedBook =
        ["users/7/b.pdf", "users/7/b_text.txt"] ∧
    processedBook.book_metadata.index_key = some (mkIndexKey 7 "b") ∧
    processedBook.book_metadata.vectorizer_key =
        some (mkVectorizerKey 7 "b") ∧
    processedBook.book_metadata.chunks_key = some (mkChunksKey 7 "b") ∧
    mkIndexKey 7 "b" ∉ delete_book_s3_keys processedBook ∧
    mkVectorizerKey 7 "b" ∉ delete_book_s3_keys processedBook ∧
    mkChunksKey 7 "b" ∉ delete_book_s3_keys processedBook := by
  refine ⟨rfl, rfl, rfl, rfl, ?_, ?_, ?_⟩ <;> decide

/-! ## Single-book fetch — `get_book` (routes/books.py lines 410-447) and
`list_books` (lines 137-166) -/

inductive GetBookError where
  | notFound
  | unhandledTypeError
deriving DecidableEq, Repr

/-- The enriched payload `get_book` returns: when `total_pages > 0` the
handler attaches a reading-progress percentage to the metadata (lines
442-444). The one-decimal rounding is immaterial here; the exact ratio
stands in. -/
structure BookPayload where
  book : Book
  reading_progress : Option ℚ
deriving DecidableEq, Repr

/-- `get_book` (lines 430-447): after the ownership check, the handler
evaluates `book.total_pages > 0` with no surrounding `try`.  When
`total_pages` is NULL, Python evaluates `None > 0`, raising an uncaught
`TypeError`. -/
def get_book (book? : Option Book) : Except GetBookError BookPayload :=
  match book? with
  | none => .error .notFound
  | some book =>
    match book.total_pages with
    | none => .error .unhandledTypeError
    | some tp =>
      if tp > 0 then
        .ok { book := book,
              reading_progress := some ((book.current_page : ℚ) * 100 / tp) }
      else
        .ok { book := book, reading_progress := none }

/-- `list_books` (line 161): offset/limit pagination over the owned rows;
`total_pages` is never compared, so rows with NULL `total_pages` are
returned untouched. -/
def list_books (books : List Book) (skip : Nat) (limit : Nat) : List Book :=
  (books.drop skip).take limit

/-- **C10.** For every book whose `total_pages` is unset, the get-book
endpoint fails with the unhandled `TypeError` from `None > 0` and never
returns a payload, while the list-books endpoint returns the same book;
whenever `total_pages` is set, `get_book` succeeds. -/
theorem get_book_null_total_pages (book : Book)
    (h : book.total_pages = none) :
    get_book (some book) = .error .unhandledTypeError ∧
    (∀ p, get_book (some book) ≠ .ok p) ∧
    book ∈ list_books [book] 0 10 ∧
    (∀ b : Book, b.total_pages ≠ none → ∃ p, get_book (some b) = .ok p) := by
  have h1 : get_book (some book) = .error .unhandledTypeError := by
    simp only [get_book]
    rw [h]
  refine ⟨h1, ?_, ?_, ?_⟩
  · intro p hp
    rw [h1] at hp
    exact Except.noConfusion hp
  · simp [list_books]
  · intro b hb
    rcases htp : b.total_pages with _ | tp
    · exact absurd htp hb
    · simp only [get_book]
      rw [htp]
      dsimp only
      by_cases hpos : tp > 0
      · rw [if_pos hpos]
        exact ⟨_, rfl⟩
      · rw [if_neg hpos]
        exact ⟨_, rfl⟩

/-- Witness for C10: a freshly uploaded book with NULL `total_pages` fails
on `get_book` but is returned by `list_books`; the same book with
`total_pages = 2` succeeds. -/
theorem get_book_null_total_pages_witness :
    get_book (some sampleBook) = .error .unhandledTypeError ∧
      sampleBook ∈ list_books [sampleBook] 0 10 ∧
      ∃ p, get_book (some processedBook) = .ok p :=
  have h := get_book_null_total_pages sampleBook rfl
  ⟨h.1, h.2.2.1, h.2.2.2 processedBook (by decide)⟩

end Bookableu
